import Mathlib

/-!
Verification of the request-handling pipeline of the exporter_exporter
metrics gateway: the bearer-token middleware, the reverse-proxy director
(query merging and module-parameter stripping), the request dispatcher,
the backend error classifier, the TLS client-certificate matcher, the
module-listing endpoint and the module executor wrapper.

Go maps from string keys to string-slice values (url.Values) are modelled
as association lists; a missing key reads as the empty list, matching the
nil slice a Go map read yields.  Go map iteration order is unspecified,
but every property proved here is about the per-key value lists of the
result, which are independent of that order.
-/

/-- Go url.Values: keys mapped to lists of values, as an association list. -/
abbrev Vals := List (String × List String)

/-- Go map read q[k]: a missing key yields the nil (empty) slice. -/
def valsGet : Vals → String → List String
  | [], _ => []
  | (k2, vs) :: rest, k => if k2 = k then vs else valsGet rest k

/-- url.Values.Add: append one value to the list stored under a key,
creating the entry if the key is absent. -/
def valsAdd : Vals → String → String → Vals
  | [], k, v => [(k, [v])]
  | (k2, vs) :: rest, k, v =>
      if k2 = k then (k2, vs ++ [v]) :: rest else (k2, vs) :: valsAdd rest k v

/-- Add every value of a list under one key, in order
(the inner loop of the director merge). -/
def valsAddAll : Vals → String → List String → Vals
  | q, _, [] => q
  | q, k, v :: vs => valsAddAll (valsAdd q k v) k vs

/-- The merge loop of the director: for every key of the configured
default query, Add each of its values into the inbound query. -/
def mergeVals : Vals → Vals → Vals
  | [], qvs => qvs
  | (k, vs) :: rest, qvs => mergeVals rest (valsAddAll qvs k vs)

/-- Go map assignment q[k] = l: replace the entry, creating it if absent. -/
def valsSet : Vals → String → List String → Vals
  | [], k, l => [(k, l)]
  | (k2, vs) :: rest, k, l =>
      if k2 = k then (k2, l) :: rest else (k2, vs) :: valsSet rest k l

/-- All values an association list holds under a key, concatenated in
list order (coincides with valsGet when keys are unique). -/
def allVals : Vals → String → List String
  | [], _ => []
  | (k2, vs) :: rest, k => if k2 = k then vs ++ allVals rest k else allVals rest k

theorem valsGet_valsAdd_self (q : Vals) (k v : String) :
    valsGet (valsAdd q k v) k = valsGet q k ++ [v] := by
  induction q with
  | nil => simp [valsAdd, valsGet]
  | cons p rest ih =>
      obtain ⟨k2, vs⟩ := p
      by_cases h : k2 = k <;> simp [valsAdd, valsGet, h, ih]

theorem valsGet_valsAdd_ne (q : Vals) {k k2 : String} (v : String) (h : k2 ≠ k) :
    valsGet (valsAdd q k v) k2 = valsGet q k2 := by
  induction q with
  | nil => simp [valsAdd, valsGet, Ne.symm h]
  | cons p rest ih =>
      obtain ⟨k3, vs⟩ := p
      by_cases h3 : k3 = k
      · subst h3
        simp [valsAdd, valsGet, Ne.symm h]
      · simp [valsAdd, valsGet, h3, ih]

theorem valsGet_valsAddAll_self (vs : List String) (q : Vals) (k : String) :
    valsGet (valsAddAll q k vs) k = valsGet q k ++ vs := by
  induction vs generalizing q with
  | nil => simp [valsAddAll]
  | cons v vs ih => simp [valsAddAll, ih, valsGet_valsAdd_self]

theorem valsGet_valsAddAll_ne (vs : List String) (q : Vals) {k k2 : String}
    (h : k2 ≠ k) : valsGet (valsAddAll q k vs) k2 = valsGet q k2 := by
  induction vs generalizing q with
  | nil => simp [valsAddAll]
  | cons v vs ih => simp [valsAddAll, ih, valsGet_valsAdd_ne _ _ h]

/-- Per-key content of the director merge: the inbound values of a key,
followed by every default value configured under that key. -/
theorem valsGet_mergeVals (cvs : Vals) (qvs : Vals) (k : String) :
    valsGet (mergeVals cvs qvs) k = valsGet qvs k ++ allVals cvs k := by
  induction cvs generalizing qvs with
  | nil => simp [mergeVals, allVals]
  | cons p rest ih =>
      obtain ⟨k2, vs⟩ := p
      by_cases h : k2 = k
      · subst h
        simp [mergeVals, allVals, ih, valsGet_valsAddAll_self]
      · simp [mergeVals, allVals, h, ih, valsGet_valsAddAll_ne _ _ (fun he => h he.symm)]

theorem allVals_eq_nil_of_not_mem {cvs : Vals} {k : String}
    (h : k ∉ cvs.map Prod.fst) : allVals cvs k = [] := by
  induction cvs with
  | nil => simp [allVals]
  | cons p rest ih =>
      obtain ⟨k2, vs⟩ := p
      simp only [List.map_cons, List.mem_cons] at h
      push_neg at h
      simp [allVals, Ne.symm h.1, ih h.2]

theorem allVals_eq_valsGet_of_nodup {cvs : Vals}
    (h : (cvs.map Prod.fst).Nodup) (k : String) :
    allVals cvs k = valsGet cvs k := by
  induction cvs with
  | nil => simp [allVals, valsGet]
  | cons p rest ih =>
      obtain ⟨k2, vs⟩ := p
      simp only [List.map_cons, List.nodup_cons] at h
      by_cases hk : k2 = k
      · subst hk
        simp [allVals, valsGet, allVals_eq_nil_of_not_mem h.1]
      · simp [allVals, valsGet, hk, ih h.2]

theorem valsGet_valsSet_self (q : Vals) (k : String) (l : List String) :
    valsGet (valsSet q k l) k = l := by
  induction q with
  | nil => simp [valsSet, valsGet]
  | cons p rest ih =>
      obtain ⟨k2, vs⟩ := p
      by_cases h : k2 = k <;> simp [valsSet, valsGet, h, ih]

theorem valsGet_valsSet_ne (q : Vals) {k k2 : String} (l : List String)
    (h : k2 ≠ k) : valsGet (valsSet q k l) k2 = valsGet q k2 := by
  induction q with
  | nil => simp [valsSet, valsGet, Ne.symm h]
  | cons p rest ih =>
      obtain ⟨k3, vs⟩ := p
      by_cases h3 : k3 = k
      · subst h3
        simp [valsSet, valsGet, Ne.symm h]
      · simp [valsSet, valsGet, h3, ih]

/-! ## String splitting

Go strings.SplitN(s, " ", 2) splits at the first space only: it yields
the part before the first space and everything after it, or the whole
string when it holds no space.  Modelled by splitting on every space
(Go strings.Split semantics, including Split("", " ") = [""]) and
rejoining the tail with single spaces. -/

/-- Split a character list on spaces; mirrors Go strings.Split(s, " ")
on the character level (the empty input yields one empty field). -/
def splitSpaceChars : List Char → List (List Char)
  | [] => [[]]
  | c :: cs =>
      if c = ' ' then [] :: splitSpaceChars cs
      else
        match splitSpaceChars cs with
        | [] => [[c]]
        | w :: ws => (c :: w) :: ws

/-- Go strings.Split(s, " "). -/
def splitSpace (s : String) : List String :=
  (splitSpaceChars s.data).map String.mk

/-- Rejoin fields with single spaces (inverse of splitting on spaces). -/
def joinSpace : List String → String
  | [] => ""
  | [w] => w
  | w :: ws => w ++ " " ++ joinSpace ws

/-- Go strings.SplitN(s, " ", 2). -/
def splitN2 (s : String) : List String :=
  match splitSpace s with
  | [] => [s]
  | [w] => [w]
  | w :: ws => [w, joinSpace ws]

/-! ## Bearer authentication middleware (src/http.go, BearerAuthMiddleware) -/

/-- What the bearer middleware does with a request: deny it with a
status, a plaintext body and an (always absent in the code) challenge
header, or pass it through to the wrapped inner handler. -/
inductive BearerOutcome where
  | denied (status : Nat) (body : String) (challenge : Option String)
  | passedThrough
  deriving DecidableEq, Repr

/-- src/http.go BearerAuthMiddleware.ServeHTTP.  The header argument is
the raw Authorization header; Header.Get returns the empty string when
the header is absent, modelled by Option.getD. -/
def BearerAuthMiddleware.ServeHTTP (token : String) (authHeader : Option String) :
    BearerOutcome :=
  if authHeader.getD "" = "" then .denied 401 "Authorization header is missing" none
  else
    match splitN2 (authHeader.getD "") with
    | [a, t] =>
        if a = "Bearer" then
          if t = token then .passedThrough
          else .denied 401 "Invalid Bearer Token" none
        else .denied 401 "Authorization header not of Bearer type" none
    | _ => .denied 401 "Authorization header not of Bearer type" none

/-! ## Reverse proxy director (src/http.go, getReverseProxyDirectorFunc)

getReverseProxyDirectorFunc parses the configured backend path once at
module-build time; the per-request closure receives the parsed parts
(base.Query() and base.Path) here as fields of httpConfig. -/

/-- The HTTP backend descriptor of a module, with the configured path
already parsed into its path and query parts. -/
structure httpConfig where
  scheme : String
  address : String
  port : Nat
  baseQuery : Vals
  basePath : String
  headers : List (String × String)
  basicAuthUsername : String
  basicAuthPassword : String
  deriving DecidableEq, Repr

/-- The outbound request the director builds. -/
structure OutRequest where
  query : Vals
  headers : List (String × String)
  scheme : String
  host : String
  path : String
  basicAuth : Option (String × String)
  deriving DecidableEq, Repr

/-- The per-request director closure returned by
getReverseProxyDirectorFunc (src/http.go).  It merges the configured
default query into the inbound query with Add, then slices
qvs[module][1:]; that slice operation panics when the list under the
module key is empty, modelled by none.  Header.Add appends the
configured headers after the inbound ones; scheme, host and path are
rewritten to the backend values; basic-auth credentials are attached
when both a username and a password are configured. -/
def getReverseProxyDirectorFunc (cfg : httpConfig) (inQuery : Vals)
    (inHeaders : List (String × String)) : Option OutRequest :=
  match valsGet (mergeVals cfg.baseQuery inQuery) "module" with
  | [] => none
  | _ :: rest =>
      some {
        query := valsSet (mergeVals cfg.baseQuery inQuery) "module" rest
        headers := inHeaders ++ cfg.headers
        scheme := cfg.scheme
        host := cfg.address ++ ":" ++ toString cfg.port
        path := cfg.basePath
        basicAuth :=
          if cfg.basicAuthUsername ≠ "" ∧ cfg.basicAuthPassword ≠ "" then
            some (cfg.basicAuthUsername, cfg.basicAuthPassword)
          else none }

/-! ## Backend error classification (src/http.go, getReverseProxyErrorHandlerFunc) -/

/-- A backend failure: errors.Is(err, context.DeadlineExceeded) selects
the first constructor; every other transport or protocol error is the
second. -/
inductive BackendError where
  | deadlineExceeded
  | other (msg : String)
  deriving DecidableEq, Repr

/-- A classified error response: status and body written by http.Error
(which appends a newline to the http.StatusText message), plus the log
line modelled by the module name it carries and which of the two
formats fired (true = the timeout format). -/
structure ErrorResponse where
  status : Nat
  body : String
  logModule : String
  logTimeout : Bool
  deriving DecidableEq, Repr

/-- src/http.go getReverseProxyErrorHandlerFunc: the per-module error
handler closure. -/
def getReverseProxyErrorHandlerFunc (name : String) (e : BackendError) :
    ErrorResponse :=
  match e with
  | .deadlineExceeded => ⟨504, "Gateway Timeout\n", name, true⟩
  | .other _ => ⟨502, "Bad Gateway\n", name, false⟩

/-- Outcome of the HTTP module executor on a backend error: the
classified response plus the per-module counter increments, modelled
as lists of emitted labels. -/
structure HTTPExecutorErrorOutcome where
  response : ErrorResponse
  timeoutIncs : List String
  errorIncs : List String
  deriving DecidableEq, Repr

/-- Modelled from the spec: httpConfig.ServeHTTP, the HTTP module
executor body that forwards the request and maintains the per-module
counters, is not under src/ (src/http.go holds only the director and
error-handler factories it uses, and src/main.go only declares the
counter vectors).  Per the spec, on a backend error the executor
invokes the error handler and increments the timeout counter when the
error is deadline-exceeded and the error counter for any other
transport or protocol error, both labelled with the module name. -/
def httpExecutorOnBackendError (name : String) (e : BackendError) :
    HTTPExecutorErrorOutcome :=
  { response := getReverseProxyErrorHandlerFunc name e
    timeoutIncs := match e with | .deadlineExceeded => [name] | .other _ => []
    errorIncs := match e with | .deadlineExceeded => [] | .other _ => [name] }

/-! ## TLS client-certificate matcher (src/main.go, getClientValidator) -/

/-- The leaf-certificate fields the validator inspects. -/
structure Certificate where
  commonName : String
  dnsNames : List String
  emailAddresses : List String
  deriving DecidableEq, Repr

/-- One leaf check: Common Name first, then each DNS SAN, then each
email SAN, short-circuiting at the first match. -/
def leafMatches (p : String → Bool) (c : Certificate) : Bool :=
  p c.commonName || c.dnsNames.any p || c.emailAddresses.any p

/-- src/main.go getClientValidator: the per-handshake verification
closure over the verified chains.  The compiled regexp r.MatchString is
abstracted as the Boolean predicate p.  Indexing c[0] on an empty chain
panics, modelled by none; some true models the nil error return
(handshake accepted) and some false the error return. -/
def getClientValidator (p : String → Bool) :
    List (List Certificate) → Option Bool
  | [] => some false
  | chain :: rest =>
      match chain with
      | [] => none
      | leaf :: _ =>
          if leafMatches p leaf then some true else getClientValidator p rest

/-! ## Request dispatcher (src/main.go, config.doProxy) -/

/-- A module configuration as the dispatcher and executor wrapper see
it; the backend descriptors live behind the method dispatch. -/
structure moduleConfig where
  name : String
  method : String
  timeout : Nat
  deriving DecidableEq, Repr

/-- config.getModule: registry lookup by module name. -/
def getModule : List (String × moduleConfig) → String → Option moduleConfig
  | [], _ => none
  | (n, m) :: rest, k => if n = k then some m else getModule rest k

/-- Comma-ok Go map read: present or absent, with the stored list. -/
def valsLookup : Vals → String → Option (List String)
  | [], _ => none
  | (k2, vs) :: rest, k => if k2 = k then some vs else valsLookup rest k

/-- Go fmt %v of a string slice: the fields joined by single spaces
inside brackets; the nil slice prints as empty brackets. -/
def fmtStringSlice (vs : List String) : String := "[" ++ joinSpace vs ++ "]"

/-- What the dispatcher produces: a direct response, or delegation to
the named module. -/
inductive ProxyResponse where
  | response (status : Nat) (body : String)
  | delegated (moduleName : String)
  deriving DecidableEq, Repr

/-- Dispatcher result plus the error-counter increments it emits. -/
structure ProxyOutcome where
  result : ProxyResponse
  errorIncs : List String
  deriving DecidableEq, Repr

/-- src/main.go config.doProxy.  The comma-ok read of
Query()[module] decides the 400; mod[0] indexes the stored value
list, which panics when that list is empty (none here; a query parsed
from a URL never stores an empty list).  http.Error appends a newline
to each formatted body, which itself ends in a newline. -/
def doProxy (registry : List (String × moduleConfig)) (query : Vals) :
    Option ProxyOutcome :=
  match valsLookup query "module" with
  | none => some ⟨.response 400 "require parameter module is missing[]\n\n", []⟩
  | some mod =>
      match mod with
      | [] => none
      | v :: vs =>
          match getModule registry v with
          | some _ => some ⟨.delegated v, []⟩
          | none =>
              some ⟨.response 404
                ("unknown module " ++ fmtStringSlice (v :: vs) ++ "\n\n"),
                ["unknown"]⟩

/-! ## Module listing (src/main.go, config.listModules) -/

/-- The gateway configuration fields the listing endpoint can see. -/
structure gatewayConfig where
  proxyPath : String
  telemetryPath : String
  modules : List (String × moduleConfig)
  deriving DecidableEq, Repr

/-- A listing response: the JSON object by its key list, the HTML
document by the list of anchor hrefs it renders, or a 500. -/
inductive ListingResponse where
  | jsonObject (keys : List String)
  | htmlLinks (links : List String)
  | serverError (status : Nat)
  deriving DecidableEq, Repr

/-- src/main.go config.listModules.  Negotiates on the exact Accept
value application/json.  The JSON marshal of the module map is
modelled by its key list (Go sorts map keys when marshalling; only the
key set matters here); the HTML template by the anchor hrefs it
renders, which hardcode the literal path /proxy regardless of the
configured proxy path.  json.Marshal and template execution are
fallible in Go, kept here as two Boolean inputs (true = success; for
the map and template at hand they cannot actually fail). -/
def listModules (cfg : gatewayConfig) (accept : String)
    (marshalOk templateOk : Bool) : ListingResponse :=
  if accept = "application/json" then
    if marshalOk then .jsonObject (cfg.modules.map Prod.fst)
    else .serverError 500
  else
    if templateOk then .htmlLinks (cfg.modules.map (fun p => "/proxy?module=" ++ p.1))
    else .serverError 500

/-! ## Module executor wrapper (src/main.go, moduleConfig.ServeHTTP) -/

/-- Outcome of one executor invocation: response status, the duration
observations recorded (as their module labels), the error-counter
increments, and the extra request-scoped deadline derived from the
module timeout (none when the timeout is zero: only the caller
deadline remains in force). -/
structure ModuleServeOutcome where
  status : Nat
  durationObs : List String
  errorIncs : List String
  addedDeadline : Option Nat
  deriving DecidableEq, Repr

/-- src/main.go moduleConfig.ServeHTTP.  The deferred proxyDuration
observation labelled with the module name runs on every path.  The
Exec and HTTP backend handlers are not under src/ and are abstracted
as functions from the deadline in force to the status they produce;
neither touches the duration metric.  An unknown method yields a 404
and one error-counter increment for the module. -/
def moduleConfig.ServeHTTP (m : moduleConfig) (execH httpH : Option Nat → Nat) :
    ModuleServeOutcome :=
  let d : Option Nat := if m.timeout = 0 then none else some m.timeout
  if m.method = "exec" then ⟨execH d, [m.name], [], d⟩
  else if m.method = "http" then ⟨httpH d, [m.name], [], d⟩
  else ⟨404, [m.name], [m.name], d⟩

/-! ## Claim C1: bearer authentication -/

/-- Claim C1, counterexample: the header holding the text Bearer a b is
three space-separated tokens, not two, so the claim prescribes the 401
body Authorization header not of Bearer type; the middleware splits at
the first space only and, with secret a, answers Invalid Bearer Token
instead. -/
theorem bearer_auth_counterexample :
    (splitSpace "Bearer a b").length ≠ 2 ∧
    BearerAuthMiddleware.ServeHTTP "a" (some "Bearer a b") =
      .denied 401 "Invalid Bearer Token" none := by
  constructor
  · decide
  · rfl

/-- Claim C1 (amended): the middleware splits the Authorization header
at its first space.  An absent (hence empty) header is denied 401 with
body Authorization header is missing; a header with no space, or whose
part before the first space is not literally Bearer, is denied 401 with
body Authorization header not of Bearer type; otherwise everything
after the first space is the presented token, denied 401 with body
Invalid Bearer Token when it differs from the secret, and passed to the
inner handler when it equals it; every denial is a 401 and carries no
challenge header. -/
theorem bearer_auth_first_space_split (token : String) (hdr : Option String) :
    (hdr.getD "" = "" →
      BearerAuthMiddleware.ServeHTTP token hdr =
        .denied 401 "Authorization header is missing" none) ∧
    (∀ w, hdr.getD "" ≠ "" → splitN2 (hdr.getD "") = [w] →
      BearerAuthMiddleware.ServeHTTP token hdr =
        .denied 401 "Authorization header not of Bearer type" none) ∧
    (∀ a t, hdr.getD "" ≠ "" → splitN2 (hdr.getD "") = [a, t] → a ≠ "Bearer" →
      BearerAuthMiddleware.ServeHTTP token hdr =
        .denied 401 "Authorization header not of Bearer type" none) ∧
    (∀ t, hdr.getD "" ≠ "" → splitN2 (hdr.getD "") = ["Bearer", t] → t ≠ token →
      BearerAuthMiddleware.ServeHTTP token hdr =
        .denied 401 "Invalid Bearer Token" none) ∧
    (∀ t, hdr.getD "" ≠ "" → splitN2 (hdr.getD "") = ["Bearer", t] → t = token →
      BearerAuthMiddleware.ServeHTTP token hdr = .passedThrough) ∧
    ((∃ b, BearerAuthMiddleware.ServeHTTP token hdr = .denied 401 b none) ∨
      BearerAuthMiddleware.ServeHTTP token hdr = .passedThrough) := by
  refine ⟨?_, ?_, ?_, ?_, ?_, ?_⟩
  · intro h
    simp [BearerAuthMiddleware.ServeHTTP, h]
  · intro w h hs
    simp [BearerAuthMiddleware.ServeHTTP, h, hs]
  · intro a t h hs ha
    simp [BearerAuthMiddleware.ServeHTTP, h, hs, ha]
  · intro t h hs ht
    simp [BearerAuthMiddleware.ServeHTTP, h, hs, ht]
  · intro t h hs ht
    simp [BearerAuthMiddleware.ServeHTTP, h, hs, ht]
  · by_cases h0 : hdr.getD "" = ""
    · exact Or.inl ⟨"Authorization header is missing",
        by simp [BearerAuthMiddleware.ServeHTTP, h0]⟩
    · cases hs : splitN2 (hdr.getD "") with
      | nil => exact Or.inl ⟨"Authorization header not of Bearer type",
          by simp [BearerAuthMiddleware.ServeHTTP, h0, hs]⟩
      | cons a rest =>
          cases rest with
          | nil => exact Or.inl ⟨"Authorization header not of Bearer type",
              by simp [BearerAuthMiddleware.ServeHTTP, h0, hs]⟩
          | cons t rest2 =>
              cases rest2 with
              | nil =>
                  by_cases ha : a = "Bearer"
                  · by_cases ht : t = token
                    · exact Or.inr (by simp [BearerAuthMiddleware.ServeHTTP, h0, hs, ha, ht])
                    · exact Or.inl ⟨"Invalid Bearer Token",
                        by simp [BearerAuthMiddleware.ServeHTTP, h0, hs, ha, ht]⟩
                  · exact Or.inl ⟨"Authorization header not of Bearer type",
                      by simp [BearerAuthMiddleware.ServeHTTP, h0, hs, ha]⟩
              | cons u rest3 =>
                  exact Or.inl ⟨"Authorization header not of Bearer type",
                    by simp [BearerAuthMiddleware.ServeHTTP, h0, hs]⟩

/-- Claim C1 (amended), witness: a correct bearer token passes through,
an absent header is denied with the missing-header body. -/
theorem bearer_auth_first_space_split_witness :
    BearerAuthMiddleware.ServeHTTP "t" (some "Bearer t") = .passedThrough ∧
    BearerAuthMiddleware.ServeHTTP "t" none =
      .denied 401 "Authorization header is missing" none := by
  constructor
  · exact (bearer_auth_first_space_split "t" (some "Bearer t")).2.2.2.2.1 "t"
      (by decide) (by decide) rfl
  · exact (bearer_auth_first_space_split "t" none).1 rfl

/-! ## Claims C2, C3, C9: the reverse proxy director -/

/-- Claim C2: when the inbound query carries k greater or equal 1 values
for the module parameter (and the module default query, which is merged
first, does not itself configure a module parameter), the outbound
query carries exactly the last k minus 1 of those values in order: the
first inbound value is removed, the rest forwarded unchanged. -/
theorem director_strips_first_module_value (cfg : httpConfig) (inQuery : Vals)
    (inHeaders : List (String × String)) (x : String) (xs : List String)
    (hq : valsGet inQuery "module" = x :: xs)
    (hc : "module" ∉ cfg.baseQuery.map Prod.fst) :
    ∃ out, getReverseProxyDirectorFunc cfg inQuery inHeaders = some out ∧
      valsGet out.query "module" = xs := by
  have hmerge : valsGet (mergeVals cfg.baseQuery inQuery) "module" = x :: xs := by
    rw [valsGet_mergeVals, allVals_eq_nil_of_not_mem hc, hq, List.append_nil]
  unfold getReverseProxyDirectorFunc
  rw [hmerge]
  exact ⟨_, rfl, valsGet_valsSet_self _ _ _⟩

/-- Claim C2, witness: inbound module values x then y yield outbound
module value y alone. -/
theorem director_strips_first_module_value_witness :
    ∃ out, getReverseProxyDirectorFunc ⟨"http", "h", 80, [], "/m", [], "", ""⟩
        [("module", ["x", "y"])] [] = some out ∧
      valsGet out.query "module" = ["y"] :=
  director_strips_first_module_value _ _ _ "x" ["y"] (by decide) (by decide)

/-- Claim C3: for every key configured in the module default query (the
default query not configuring module itself, its keys unique as a Go
map guarantees, and the inbound query carrying at least one module
value so the director returns), the outbound query holds all inbound
values of that key followed by all configured default values of that
key: nothing overwritten, nothing deduplicated. -/
theorem director_merges_default_query_additively (cfg : httpConfig)
    (inQuery : Vals) (inHeaders : List (String × String)) (k : String)
    (hk : k ∈ cfg.baseQuery.map Prod.fst)
    (hc : "module" ∉ cfg.baseQuery.map Prod.fst)
    (hnd : (cfg.baseQuery.map Prod.fst).Nodup)
    (hq : valsGet inQuery "module" ≠ []) :
    ∃ out, getReverseProxyDirectorFunc cfg inQuery inHeaders = some out ∧
      valsGet out.query k = valsGet inQuery k ++ valsGet cfg.baseQuery k := by
  have hkm : k ≠ "module" := fun he => hc (he ▸ hk)
  have hmerge : valsGet (mergeVals cfg.baseQuery inQuery) "module" =
      valsGet inQuery "module" := by
    rw [valsGet_mergeVals, allVals_eq_nil_of_not_mem hc, List.append_nil]
  have hmk : valsGet (mergeVals cfg.baseQuery inQuery) k =
      valsGet inQuery k ++ valsGet cfg.baseQuery k := by
    rw [valsGet_mergeVals, allVals_eq_valsGet_of_nodup hnd]
  cases hv : valsGet inQuery "module" with
  | nil => exact absurd hv hq
  | cons m ms =>
      rw [hv] at hmerge
      unfold getReverseProxyDirectorFunc
      rw [hmerge]
      exact ⟨_, rfl, by rw [valsGet_valsSet_ne _ _ hkm, hmk]⟩

/-- Claim C3, witness: inbound a=1 plus configured default a=2 gives an
outbound query carrying both values under a. -/
theorem director_merges_default_query_additively_witness :
    ∃ out, getReverseProxyDirectorFunc
        ⟨"http", "h", 80, [("a", ["2"])], "/m", [], "", ""⟩
        [("a", ["1"]), ("module", ["m"])] [] = some out ∧
      valsGet out.query "a" =
        valsGet [("a", ["1"]), ("module", ["m"])] "a" ++
          valsGet [("a", ["2"])] "a" :=
  director_merges_default_query_additively _ _ _ "a"
    (by decide) (by decide) (by decide) (by decide)

/-- Claim C9: the director indexes the module value list without a
guard.  With a module default query that does not configure module
itself, the director panics (models as none) exactly when the inbound
query carries no module value, and is total as soon as it carries at
least one, the precondition the dispatcher 400 check establishes. -/
theorem director_none_iff_no_module_value (cfg : httpConfig) (inQuery : Vals)
    (inHeaders : List (String × String))
    (hc : "module" ∉ cfg.baseQuery.map Prod.fst) :
    getReverseProxyDirectorFunc cfg inQuery inHeaders = none ↔
      valsGet inQuery "module" = [] := by
  have hmerge : valsGet (mergeVals cfg.baseQuery inQuery) "module" =
      valsGet inQuery "module" := by
    rw [valsGet_mergeVals, allVals_eq_nil_of_not_mem hc, List.append_nil]
  unfold getReverseProxyDirectorFunc
  rw [hmerge]
  cases hv : valsGet inQuery "module" <;> simp

/-- Claim C9, witness: a request with no module value makes the
director panic, one with a module value does not. -/
theorem director_none_iff_no_module_value_witness :
    (getReverseProxyDirectorFunc ⟨"http", "h", 80, [("a", ["1"])], "/m", [], "", ""⟩
        [("b", ["2"])] [] = none ↔ valsGet [("b", ["2"])] "module" = []) ∧
    (getReverseProxyDirectorFunc ⟨"http", "h", 80, [("a", ["1"])], "/m", [], "", ""⟩
        [("module", ["m"])] [] = none ↔ valsGet [("module", ["m"])] "module" = []) :=
  ⟨director_none_iff_no_module_value _ _ _ (by decide),
   director_none_iff_no_module_value _ _ _ (by decide)⟩

/-! ## Claims C4, C10: the request dispatcher -/

/-- Claim C4: a query with no module key answers 400 with an
explanatory body; a first module value matching no registered module
answers 404 with a body naming the requested values and exactly one
unknown-labelled error-counter increment; a first value matching a
registered module delegates to that module. -/
theorem doProxy_dispatch (registry : List (String × moduleConfig)) (query : Vals) :
    (valsLookup query "module" = none →
      doProxy registry query =
        some ⟨.response 400 "require parameter module is missing[]\n\n", []⟩) ∧
    (∀ v vs, valsLookup query "module" = some (v :: vs) →
      getModule registry v = none →
      ∃ incs, doProxy registry query =
          some ⟨.response 404 ("unknown module " ++ fmtStringSlice (v :: vs) ++ "\n\n"),
            incs⟩ ∧
        incs.count "unknown" = 1) ∧
    (∀ v vs m, valsLookup query "module" = some (v :: vs) →
      getModule registry v = some m →
      doProxy registry query = some ⟨.delegated v, []⟩) := by
  refine ⟨?_, ?_, ?_⟩
  · intro h
    simp [doProxy, h]
  · intro v vs hq hm
    refine ⟨["unknown"], ?_, by simp⟩
    simp [doProxy, hq, hm]
  · intro v vs m hq hm
    simp [doProxy, hq, hm]

/-- Claim C4, witness: module missing gives 400, an unregistered module
name gives 404 with one unknown increment, a registered one is
delegated. -/
theorem doProxy_dispatch_witness :
    doProxy [("a", ⟨"a", "http", 0⟩)] [("x", ["1"])] =
      some ⟨.response 400 "require parameter module is missing[]\n\n", []⟩ ∧
    (∃ incs, doProxy [("a", ⟨"a", "http", 0⟩)] [("module", ["b"])] =
        some ⟨.response 404 ("unknown module " ++ fmtStringSlice ["b"] ++ "\n\n"), incs⟩ ∧
      incs.count "unknown" = 1) ∧
    doProxy [("a", ⟨"a", "http", 0⟩)] [("module", ["a"])] =
      some ⟨.delegated "a", []⟩ :=
  ⟨(doProxy_dispatch [("a", ⟨"a", "http", 0⟩)] [("x", ["1"])]).1 (by decide),
   (doProxy_dispatch [("a", ⟨"a", "http", 0⟩)] [("module", ["b"])]).2.1 "b" []
     (by decide) (by decide),
   (doProxy_dispatch [("a", ⟨"a", "http", 0⟩)] [("module", ["a"])]).2.2 "a" []
     ⟨"a", "http", 0⟩ (by decide) (by decide)⟩

/-- Claim C10: a query string carrying the module key with only the
empty value is not a 400; the dispatcher looks up the empty name, and
against a registry without it answers 404 with exactly one
unknown-labelled error-counter increment. -/
theorem doProxy_empty_module_value (registry : List (String × moduleConfig))
    (h : getModule registry "" = none) :
    ∃ body incs, doProxy registry [("module", [""])] =
        some ⟨.response 404 body, incs⟩ ∧
      incs.count "unknown" = 1 ∧
      (∀ b i, doProxy registry [("module", [""])] ≠ some ⟨.response 400 b, i⟩) := by
  refine ⟨"unknown module []\n\n", ["unknown"], ?_, by simp, ?_⟩
  · show doProxy registry [("module", [""])] =
      some ⟨.response 404 ("unknown module " ++ "[" ++ "" ++ "]" ++ "\n\n"), ["unknown"]⟩
    simp [doProxy, valsLookup, h, fmtStringSlice, joinSpace]
  · intro b i heq
    rw [show doProxy registry [("module", [""])] =
        some ⟨.response 404 "unknown module []\n\n", ["unknown"]⟩ from
      by simp [doProxy, valsLookup, h, fmtStringSlice, joinSpace]] at heq
    simp at heq

/-- Claim C10, witness: the empty registry has no module named by the
empty string. -/
theorem doProxy_empty_module_value_witness :
    ∃ body incs, doProxy [] [("module", [""])] = some ⟨.response 404 body, incs⟩ ∧
      incs.count "unknown" = 1 ∧
      (∀ b i, doProxy [] [("module", [""])] ≠ some ⟨.response 400 b, i⟩) :=
  doProxy_empty_module_value [] (by decide)

/-! ## Claim C5: backend failure classification -/

/-- Claim C5: a deadline-exceeded backend error answers 504 with one
timeout-counter increment for the module; any other transport or
protocol error answers 502 with one error-counter increment; both emit
a log line carrying the module name (the response classification is
src/http.go getReverseProxyErrorHandlerFunc; the counter increments
live in the executor body modelled from the spec). -/
theorem http_executor_error_classification (name : String) (e : BackendError) :
    (e = .deadlineExceeded →
      (httpExecutorOnBackendError name e).response.status = 504 ∧
      (httpExecutorOnBackendError name e).timeoutIncs.count name = 1 ∧
      (httpExecutorOnBackendError name e).errorIncs = []) ∧
    (∀ msg, e = .other msg →
      (httpExecutorOnBackendError name e).response.status = 502 ∧
      (httpExecutorOnBackendError name e).errorIncs.count name = 1 ∧
      (httpExecutorOnBackendError name e).timeoutIncs = []) ∧
    (httpExecutorOnBackendError name e).response.logModule = name := by
  refine ⟨?_, ?_, ?_⟩
  · rintro rfl
    simp [httpExecutorOnBackendError, getReverseProxyErrorHandlerFunc]
  · rintro msg rfl
    simp [httpExecutorOnBackendError, getReverseProxyErrorHandlerFunc]
  · cases e <;> simp [httpExecutorOnBackendError, getReverseProxyErrorHandlerFunc]

/-- Claim C5, witness: a timeout of module m gives 504 and one timeout
increment for m; another error gives 502 and one error increment. -/
theorem http_executor_error_classification_witness :
    ((httpExecutorOnBackendError "m" .deadlineExceeded).response.status = 504 ∧
      (httpExecutorOnBackendError "m" .deadlineExceeded).timeoutIncs.count "m" = 1 ∧
      (httpExecutorOnBackendError "m" .deadlineExceeded).errorIncs = []) ∧
    ((httpExecutorOnBackendError "m" (.other "refused")).response.status = 502 ∧
      (httpExecutorOnBackendError "m" (.other "refused")).errorIncs.count "m" = 1 ∧
      (httpExecutorOnBackendError "m" (.other "refused")).timeoutIncs = []) :=
  ⟨(http_executor_error_classification "m" .deadlineExceeded).1 rfl,
   (http_executor_error_classification "m" (.other "refused")).2.1 "refused" rfl⟩

/-! ## Claim C6: TLS client-certificate matcher -/

/-- On chains whose members are all non-empty, the validator computes
whether some chain has a matching leaf. -/
theorem clientValidator_eq_any (p : String → Bool)
    (chains : List (List Certificate)) (hch : ∀ c ∈ chains, c ≠ []) :
    getClientValidator p chains =
      some (chains.any fun c =>
        match c with
        | [] => false
        | leaf :: _ => leafMatches p leaf) := by
  induction chains with
  | nil => rfl
  | cons c rest ih =>
      cases c with
      | nil => exact absurd rfl (hch [] (by simp))
      | cons leaf tail =>
          by_cases h : leafMatches p leaf
          · simp [getClientValidator, h]
          · simp [getClientValidator, h,
              ih (fun c hc => hch c (List.mem_cons_of_mem _ hc))]

/-- Claim C6: with a non-empty set of verified chains (each chain
non-empty, as the TLS stack guarantees), the handshake is accepted
exactly when some chain leaf has a Common Name, DNS SAN or email SAN
matching the pattern (the first match short-circuits across chains and
fields in the code); otherwise the validator returns the error that
fails the handshake. -/
theorem client_validator_accepts_iff (p : String → Bool)
    (chains : List (List Certificate)) (hne : chains ≠ [])
    (hch : ∀ c ∈ chains, c ≠ []) :
    (getClientValidator p chains = some true ↔
      ∃ c ∈ chains, ∃ leaf tail, c = leaf :: tail ∧ leafMatches p leaf = true) ∧
    (getClientValidator p chains ≠ some true →
      getClientValidator p chains = some false) := by
  rw [clientValidator_eq_any p chains hch]
  constructor
  · rw [Option.some_inj, List.any_eq_true]
    constructor
    · rintro ⟨c, hc, hf⟩
      cases c with
      | nil => exact absurd rfl (hch [] hc)
      | cons leaf tail => exact ⟨_, hc, leaf, tail, rfl, hf⟩
    · rintro ⟨c, hc, leaf, tail, rfl, hm⟩
      exact ⟨_, hc, hm⟩
  · cases chains.any _ <;> simp

/-- Claim C6, witness: a verified chain whose leaf carries a matching
email SAN is accepted. -/
theorem client_validator_accepts_iff_witness :
    getClientValidator (fun s => s == "admin@example.com")
      [[⟨"cn", [], ["admin@example.com"]⟩]] = some true :=
  ((client_validator_accepts_iff (fun s => s == "admin@example.com")
      [[⟨"cn", [], ["admin@example.com"]⟩]] (by decide)
      (by intro c hc; simp at hc; simp [hc])).1).mpr
    ⟨[⟨"cn", [], ["admin@example.com"]⟩], by simp,
      ⟨"cn", [], ["admin@example.com"]⟩, [], rfl, by decide⟩

/-! ## Claim C7: module listing -/

/-- Claim C7, counterexample: with the proxy path configured as /p and
one registered module a, the HTML listing renders the anchor
/proxy?module=a, not /p?module=a: the template hardcodes the default
path and ignores the configured proxy path. -/
theorem list_modules_counterexample :
    listModules ⟨"/p", "/metrics", [("a", ⟨"a", "http", 0⟩)]⟩ "text/html" true true =
      .htmlLinks ["/proxy?module=a"] ∧
    ListingResponse.htmlLinks ["/proxy?module=a"] ≠
      .htmlLinks ["/p" ++ "?module=" ++ "a"] := by
  constructor
  · rfl
  · decide

/-- Claim C7 (amended): an Accept header exactly application/json
yields a JSON object whose key set is exactly the registered module
names; any other Accept value yields an HTML document with one link
per registered module built on the literal path /proxy, regardless of
the configured proxy path; a marshalling or templating failure yields
a 500. -/
theorem list_modules_negotiation (cfg : gatewayConfig) (accept : String) :
    (accept = "application/json" →
      listModules cfg accept true true = .jsonObject (cfg.modules.map Prod.fst)) ∧
    (accept ≠ "application/json" →
      listModules cfg accept true true =
        .htmlLinks (cfg.modules.map (fun p => "/proxy?module=" ++ p.1))) ∧
    (accept = "application/json" →
      listModules cfg accept false true = .serverError 500) ∧
    (accept ≠ "application/json" →
      listModules cfg accept true false = .serverError 500) := by
  refine ⟨?_, ?_, ?_, ?_⟩ <;> intro h <;> simp [listModules, h]

/-- Claim C7 (amended), witness: a registry with modules a and b lists
exactly the keys a and b as JSON and both default-path anchors as
HTML. -/
theorem list_modules_negotiation_witness :
    listModules ⟨"/proxy", "/metrics", [("a", ⟨"a", "http", 0⟩), ("b", ⟨"b", "exec", 0⟩)]⟩
        "application/json" true true = .jsonObject ["a", "b"] ∧
    listModules ⟨"/proxy", "/metrics", [("a", ⟨"a", "http", 0⟩), ("b", ⟨"b", "exec", 0⟩)]⟩
        "text/html" true true = .htmlLinks ["/proxy?module=a", "/proxy?module=b"] :=
  ⟨(list_modules_negotiation _ "application/json").1 rfl,
   (list_modules_negotiation _ "text/html").2.1 (by decide)⟩

/-! ## Claim C8: module executor common contract -/

/-- Claim C8: every executor invocation records exactly one duration
observation labelled with the module name, whatever the method and
whatever the backend handlers return (success, backend error or
timeout being inner-handler outcomes), including the unknown-method
path; a zero module timeout adds no deadline beyond the caller
deadline, a nonzero one derives a request-scoped deadline from it. -/
theorem module_executor_contract (m : moduleConfig)
    (execH httpH : Option Nat → Nat) :
    ((m.ServeHTTP execH httpH).durationObs.count m.name = 1) ∧
    (m.timeout = 0 → (m.ServeHTTP execH httpH).addedDeadline = none) ∧
    (m.timeout ≠ 0 → (m.ServeHTTP execH httpH).addedDeadline = some m.timeout) := by
  unfold moduleConfig.ServeHTTP
  by_cases h1 : m.method = "exec" <;> by_cases h2 : m.method = "http" <;>
    by_cases ht : m.timeout = 0 <;> simp [h1, h2, ht]

/-- Claim C8, witness: an http module with timeout 5 records one
duration observation and a derived deadline; with timeout 0 it adds no
deadline; an unknown method still records exactly one observation. -/
theorem module_executor_contract_witness :
    ((moduleConfig.ServeHTTP ⟨"m", "http", 5⟩ (fun _ => 200)
        (fun _ => 200)).durationObs.count "m" = 1 ∧
      (moduleConfig.ServeHTTP ⟨"m", "http", 5⟩ (fun _ => 200)
        (fun _ => 200)).addedDeadline = some 5) ∧
    (moduleConfig.ServeHTTP ⟨"m", "tcp", 0⟩ (fun _ => 200)
        (fun _ => 200)).addedDeadline = none ∧
    (moduleConfig.ServeHTTP ⟨"m", "tcp", 0⟩ (fun _ => 200)
        (fun _ => 200)).durationObs.count "m" = 1 :=
  ⟨⟨(module_executor_contract ⟨"m", "http", 5⟩ (fun _ => 200) (fun _ => 200)).1,
    (module_executor_contract ⟨"m", "http", 5⟩ (fun _ => 200) (fun _ => 200)).2.2
      (by decide)⟩,
   (module_executor_contract ⟨"m", "tcp", 0⟩ (fun _ => 200) (fun _ => 200)).2.1 rfl,
   (module_executor_contract ⟨"m", "tcp", 0⟩ (fun _ => 200) (fun _ => 200)).1⟩
